import Mathlib

/-!
# Pool Pump Sizing Tool — verification development

Shallow embedding of the calculation engine of `src/app.js` (the
"FULL WORKING + Qty FIX + Reason + TDH Estimate FIX" iteration, the one that
defines `systemRequiredFlow`, `statusDetails`, `gpmAtTDH`, `parsePoints`,
`estimateTDHForFlow`, `guardTDHEstimate` and the estimate-button handler).

Modelling conventions:
* JavaScript numbers are modelled as `ℚ` for the curve / flow arithmetic
  (every value there is produced by field parsing, `+`, `*`, `/`, `min`,
  `max`), and as `ℝ` for the Hazen–Williams estimator, whose `Math.pow`
  with fractional exponents is modelled by `Real.rpow`.
* `NaN` can only arise in this engine as the target head handed to
  `gpmAtTDH`; it is modelled by `Option ℚ` (`none` = NaN) together with
  comparison helpers that, like JavaScript, answer `false` whenever one
  side is NaN.  All other values flow through `num(·, default)` and are
  finite, so plain `ℚ` fields model them.
* Raw text inputs that the code stores unparsed (`eqDist`, `elev`,
  `turnoverCustom`) and converts with `num(·, d)` at each use are modelled
  as `Option ℚ` (`none` = text that does not parse to a finite number).
* Fields used only for display (ids, labels, water-feature type) are not
  modelled; no computation reads them.
-/

namespace PoolPump

/-- One curve point `{gpm, tdh}` of an RPM line. -/
structure Point where
  gpm : ℚ
  tdh : ℚ
deriving DecidableEq, Repr

/-- One speed curve of a pump model: `{rpm, points}` (label is display only). -/
structure RpmLine where
  rpm : ℚ
  points : List Point
deriving DecidableEq, Repr

/-- A pump curve model: its list of RPM lines (`modelLabel` is display only). -/
structure PumpModel where
  rpmLines : List RpmLine
deriving DecidableEq, Repr

/-- The curve store `curves`: JS object lookup `curves[modelKey]`. -/
def CurveStore : Type := String → Option PumpModel

/-- A pump assignment row of `state.pumps` (id is display only). -/
structure Pump where
  model : String
  qty : ℚ
  system : String
  tdh : ℚ
deriving DecidableEq, Repr

/-- A water-feature row of `state.waterFeatures` (id/type are display only). -/
structure WaterFeature where
  qty : ℚ
  width : ℚ
  gpmPerFt : ℚ
deriving DecidableEq, Repr

/-- `state.spa`. -/
structure Spa where
  enabled : Bool
  setup : String
  spaVol : ℚ
  spaTurnH : ℚ
  jetsQty : ℚ
  gpmPerJet : ℚ
  spaTDH : ℚ
deriving DecidableEq, Repr

/-- `state.project` (client/city are display only).  `turnoverCustom` is a raw
text field, parsed with `num(·, NaN)` at each use: `none` models a value that
does not parse to a finite number. -/
structure Project where
  poolVol : ℚ
  turnoverH : ℚ
  turnoverCustom : Option ℚ
deriving DecidableEq, Repr

/-- `clamp(v, a, b) = Math.max(a, Math.min(b, v))` from the source helpers. -/
def clampQ (v a b : ℚ) : ℚ := max a (min b v)

/-- JavaScript `Math.round`: rounds half toward `+∞`. -/
def jsRound (x : ℚ) : ℤ := ⌊x + 1/2⌋

/-- `Math.max(...xs)` over a nonempty spread (the engine only applies it to
nonempty lists; `[]` is given the junk value `0`). -/
def listMax : List ℚ → ℚ
  | [] => 0
  | x :: xs => xs.foldl max x

/-- `Math.min(...xs)` over a nonempty spread. -/
def listMin : List ℚ → ℚ
  | [] => 0
  | x :: xs => xs.foldl min x

/-- A JS number that may be NaN: `none` = NaN. -/
abbrev JsNum := Option ℚ

/-- JS `<` — false when either side is NaN. -/
def jlt : JsNum → JsNum → Bool
  | some a, some b => decide (a < b)
  | _, _ => false

/-- JS `>` — false when either side is NaN. -/
def jgt : JsNum → JsNum → Bool
  | some a, some b => decide (b < a)
  | _, _ => false

/-- JS `<=` — false when either side is NaN. -/
def jle : JsNum → JsNum → Bool
  | some a, some b => decide (a ≤ b)
  | _, _ => false

/-- JS `>=` — false when either side is NaN. -/
def jge : JsNum → JsNum → Bool
  | some a, some b => decide (b ≤ a)
  | _, _ => false

/-- The segment scan of `gpmAtTDH` (`for (let i = 0; i < points.length - 1; i++)`):
walk consecutive point pairs; on the first segment whose head range brackets the
target, return the interpolated (clamped) flow; `none` when no segment crosses.
When the target is NaN, `crosses` is `false` for every segment exactly as in JS,
so the `t.getD 0` read in the interpolation branch is never reached with `none`. -/
def scanSegs (t : JsNum) : List Point → Option ℚ
  | a :: b :: rest =>
    let crosses := (jle t (some a.tdh) && jge t (some b.tdh)) ||
                   (jge t (some a.tdh) && jle t (some b.tdh))
    if crosses then
      let denom := b.tdh - a.tdh
      if |denom| < 1/1000000000 then some a.gpm
      else
        let u := (t.getD 0 - a.tdh) / denom
        some (clampQ (a.gpm + u * (b.gpm - a.gpm)) (min a.gpm b.gpm) (max a.gpm b.gpm))
    else scanSegs t (b :: rest)
  | _ => none

/-- `gpmAtTDH(points, targetTDH)`: inverse curve lookup — flow at a target head. -/
def gpmAtTDH (points : List Point) (targetTDH : JsNum) : ℚ :=
  if points.length < 2 then 0
  else
    let maxTDH := listMax (points.map Point.tdh)
    let minTDH := listMin (points.map Point.tdh)
    if jgt targetTDH (some maxTDH) then 0
    else if jlt targetTDH (some minTDH) then ((points.getLast?).map Point.gpm).getD 0
    else (scanSegs targetTDH points).getD 0

/-- `getTurnoverHours()`: a finite positive custom value wins, otherwise
`num(turnoverH, 6) || 6` (so a stored `0` falls back to `6`). -/
def getTurnoverHours (p : Project) : ℚ :=
  match p.turnoverCustom with
  | some custom => if 0 < custom then custom else (if p.turnoverH = 0 then 6 else p.turnoverH)
  | none => if p.turnoverH = 0 then 6 else p.turnoverH

/-- `calcPoolTurnoverFlowGPM()`: `(vol / hours) / 60`, `0` when `!vol || !hours`
(JS falsiness: the guard fires only on the exact value `0`). -/
def calcPoolTurnoverFlowGPM (p : Project) : ℚ :=
  let vol := p.poolVol
  let hours := getTurnoverHours p
  if vol = 0 then 0
  else if hours = 0 then 0
  else vol / hours / 60

/-- `calcWaterFeaturesFlowGPM()`: `Σ qty·width·gpmPerFt` over the rows. -/
def calcWaterFeaturesFlowGPM (ws : List WaterFeature) : ℚ :=
  ws.foldl (fun sum wf => sum + wf.qty * wf.width * wf.gpmPerFt) 0

/-- `calcSpaJetsFlowGPM()`. -/
def calcSpaJetsFlowGPM (s : Spa) : ℚ := s.jetsQty * s.gpmPerJet

/-- `calcSpaTurnoverFlowGPM()`: `(vol / hrs) / 60`, `0` when `!vol || !hrs`. -/
def calcSpaTurnoverFlowGPM (s : Spa) : ℚ :=
  if s.spaVol = 0 then 0
  else if s.spaTurnH = 0 then 0
  else s.spaVol / s.spaTurnH / 60

/-- `calcSpaRequiredFlowGPM()`: max of jets flow and spa turnover flow. -/
def calcSpaRequiredFlowGPM (s : Spa) : ℚ :=
  max (calcSpaJetsFlowGPM s) (calcSpaTurnoverFlowGPM s)

/-- `state.engineering`.  `eqDist` and `elev` are raw text inputs converted
with `num(·, 0)` at each use (`none` = not a finite number); the remaining
inputs are stored through `num` and are plain numbers.  The three
`estimated*` fields are the estimator's outputs (`estimatedTDH` starts out
as NaN, which only the display reads; outputs are modelled at the type the
computation produces: `estimatedL : ℚ`, the other two real). -/
structure Engineering where
  eqDist : Option ℚ
  fitAllow : ℚ
  pipeIn : ℚ
  elev : Option ℚ
  equipHead : ℚ
  C : ℚ
  estimatedTDH : ℝ
  estimatedFriction : ℝ
  estimatedL : ℚ

/-- The configuration snapshot the calculation engine reads (the parts of the
global `state` that the claims' functions consult, plus the curve store). -/
structure Config where
  project : Project
  waterFeatures : List WaterFeature
  spa : Spa
  pumps : List Pump
  engineering : Engineering

/-- `calcPoolRequiredFlowGPM()` = pool turnover flow + water-features flow. -/
def calcPoolRequiredFlowGPM (cfg : Config) : ℚ :=
  calcPoolTurnoverFlowGPM cfg.project + calcWaterFeaturesFlowGPM cfg.waterFeatures

/-- `systemRequiredFlow(system)`: string dispatch on the demand-system tag;
every unrecognised tag (including `"Shared"`) falls through to the pool
required flow. -/
def systemRequiredFlow (cfg : Config) (system : String) : ℚ :=
  if system = "Pool" then calcPoolTurnoverFlowGPM cfg.project
  else if system = "Water" then calcWaterFeaturesFlowGPM cfg.waterFeatures
  else if system = "Spa" then calcSpaRequiredFlowGPM cfg.spa
  else calcPoolRequiredFlowGPM cfg

/-- `maxCurveTDH(modelKey)`: the largest head over all points of all RPM lines
of the model, `0` when the model is absent or has no lines. -/
def maxCurveTDH (store : CurveStore) (modelKey : String) : ℚ :=
  match store modelKey with
  | none => 0
  | some m =>
    if m.rpmLines = [] then 0
    else m.rpmLines.foldl (fun acc line => line.points.foldl (fun a p => max a p.tdh) acc) 0

/-- The effective quantity `Math.max(1, Math.round(num(pump.qty, 1)))`. -/
def effQty (qty : ℚ) : ℤ := max 1 (jsRound qty)

/-- One candidate of `statusDetails`: `{line, per, total}`. -/
structure Cand where
  line : RpmLine
  per : ℚ
  total : ℚ
deriving DecidableEq, Repr

/-- The reason tag of a `statusDetails` verdict, one constructor per distinct
explanation template the source formats into its `text` field. -/
inductive Reason where
  /-- `"CLOSE (No curve data)"` -/
  | noCurve
  /-- `"CLOSE (TDH too high: …)"` -/
  | tdhTooHigh
  /-- `"CLOSE (No flow @ …)"` -/
  | noFlow
  /-- `"PASS (Req … ≤ Cap … @ …)"` -/
  | passReq
  /-- `"CLOSE (Req … > Cap … @ …)"` -/
  | closeReq
deriving DecidableEq, Repr

/-- The verdict object `{pass, text, rpmLine?}` of `statusDetails`, with the
formatted `text` abstracted to its `Reason` template. -/
structure StatusD where
  pass : Bool
  reason : Reason
  rpmLine : Option RpmLine
deriving DecidableEq, Repr

/-- The achievable unit flow of one RPM line at the pump's target head:
`gpmAtTDH(line.points || [], tdh)`. -/
def lineUnitFlow (line : RpmLine) (tdh : ℚ) : ℚ :=
  gpmAtTDH line.points (some tdh)

/-- The total capacity of one RPM line at the pump's target head and raw
quantity: `per * qty` with `qty = Math.max(1, Math.round(num(pump.qty, 1)))`. -/
def lineTotalCapacity (line : RpmLine) (tdh qty : ℚ) : ℚ :=
  lineUnitFlow line tdh * (effQty qty : ℤ)

/-- The candidate list of `statusDetails`: one `{line, per, total}` entry per
RPM line, keeping those with positive unit flow (`.filter(x => x.per > 0)`). -/
def candidatesOf (m : PumpModel) (tdh qty : ℚ) : List Cand :=
  (m.rpmLines.map (fun line =>
    Cand.mk line (lineUnitFlow line tdh) (lineTotalCapacity line tdh qty))).filter
    (fun x => 0 < x.per)

/-- `statusDetails(pump)`: the pump matcher.  Builds per-line candidates at the
pump's target head, keeps those with positive unit flow, and selects by the
source's policy: a stable sort ascending by rpm among the sufficient
candidates (`ok.sort((a, b) => (a.line.rpm || 0) - (b.line.rpm || 0))`), else
a stable sort descending by total capacity
(`candidates.sort((a, b) => b.total - a.total`)); JS sorts are stable, which
`List.mergeSort` models. -/
def statusDetails (cfg : Config) (store : CurveStore) (pump : Pump) : StatusD :=
  let tdh := pump.tdh
  let req := systemRequiredFlow cfg pump.system
  match store pump.model with
  | none => ⟨false, .noCurve, none⟩
  | some model =>
    if model.rpmLines = [] then ⟨false, .noCurve, none⟩
    else
      let maxTDH := maxCurveTDH store pump.model
      if maxTDH < tdh ∧ 0 < maxTDH then ⟨false, .tdhTooHigh, none⟩
      else
        let candidates := candidatesOf model tdh pump.qty
        if candidates = [] then ⟨false, .noFlow, none⟩
        else
          let ok := candidates.filter (fun x => req ≤ x.total)
          if ok ≠ [] then
            let sorted := ok.mergeSort (fun a b => a.line.rpm ≤ b.line.rpm)
            ⟨true, .passReq, sorted.head?.map Cand.line⟩
          else
            let sorted := candidates.mergeSort (fun a b => b.total ≤ a.total)
            ⟨false, .closeReq, sorted.head?.map Cand.line⟩

/-- The equivalent length of the estimator:
`L = Math.max(0, eqDist * 2 + fitAllow)`. -/
def estL (eng : Engineering) : ℚ :=
  max 0 (eng.eqDist.getD 0 * 2 + eng.fitAllow)

/-- The friction loss of the estimator (Hazen–Williams):
`4.52·L·Q^1.85 / (C^1.85·d^4.87)` with `C = clamp(num(C, 140), 80, 160)`,
`d = clamp(num(pipeIn, 2.5), 1.0, 6.0)`, `Q = Math.max(0, flow)`, and `0` when
`Q ≤ 0` or `L ≤ 0`; `Math.pow` with fractional exponents is `Real.rpow`. -/
noncomputable def estFriction (eng : Engineering) (flowGPM : ℚ) : ℝ :=
  let C := clampQ eng.C 80 160
  let d := clampQ eng.pipeIn 1 6
  let L := estL eng
  let Q := max 0 flowGPM
  if Q ≤ 0 ∨ L ≤ 0 then 0
  else (452/100 : ℝ) * (L : ℝ) * (Q : ℝ) ^ (185/100 : ℝ) /
       (((C : ℝ) ^ (185/100 : ℝ)) * ((d : ℝ) ^ (487/100 : ℝ)))

/-- The estimated head: `tdh = friction + elev + equipHead`. -/
noncomputable def estTDH (eng : Engineering) (flowGPM : ℚ) : ℝ :=
  estFriction eng flowGPM + (eng.elev.getD 0 : ℝ) + (eng.equipHead : ℝ)

/-- `estimateTDHForFlow(flowGPM)`: runs the Hazen–Williams estimator and
writes `estimatedL`, `estimatedFriction`, `estimatedTDH` into the engineering
state, returning the updated state with the estimated head. -/
noncomputable def estimateTDHForFlow (eng : Engineering) (flowGPM : ℚ) : Engineering × ℝ :=
  ({ eng with
      estimatedL := estL eng
      estimatedFriction := estFriction eng flowGPM
      estimatedTDH := estTDH eng flowGPM },
   estTDH eng flowGPM)

/-- `estimateFlowByScope(scope)`: the demand flow the estimator sizes for.
The modelled flows are all finite, so the source's `.filter(Number.isFinite)`
keeps every element. -/
def estimateFlowByScope (cfg : Config) (scope : String) : ℚ :=
  if scope = "pool" then calcPoolTurnoverFlowGPM cfg.project
  else if scope = "water" then calcWaterFeaturesFlowGPM cfg.waterFeatures
  else if scope = "spa" then calcSpaRequiredFlowGPM cfg.spa
  else if scope = "shared" then calcPoolRequiredFlowGPM cfg
  else
    let flows := cfg.pumps.map (fun p => systemRequiredFlow cfg p.system)
    if flows = [] then calcPoolRequiredFlowGPM cfg else listMax flows

/-- `round1(x) = Math.round((x + Number.EPSILON) * 10) / 10`, applied by the
handler to the estimated head before storing it on a pump (its value is an
integer number of tenths, hence rational). -/
noncomputable def round1R (x : ℝ) : ℚ := (⌊(x + (1 / 2 ^ 52 : ℝ)) * 10 + 1/2⌋ : ℤ) / 10

/-- `applyEstimatedTDHToPumps(tdh)`: write the rounded head onto every pump
whose system tag matches the apply mode. -/
noncomputable def applyEstimatedTDHToPumps (pumps : List Pump) (mode : String) (tdh : ℝ) :
    List Pump :=
  pumps.map (fun p =>
    let isMatch := mode = "all" ∨ (mode = "shared" ∧ p.system = "Shared") ∨
      (mode = "pool" ∧ p.system = "Pool") ∨ (mode = "water" ∧ p.system = "Water") ∨
      (mode = "spa" ∧ p.system = "Spa")
    if isMatch then { p with tdh := round1R tdh } else p)

/-- `guardTDHEstimate(flow, tdh)`: true iff no guard rail fires.  The
non-finiteness checks of the source cannot fire in the model (`flow : ℚ` and
`tdh` is a finite real produced by the estimator), leaving the four numeric
rails. -/
def guardTDHEstimate (flow : ℚ) (tdh : ℝ) : Prop :=
  0 < flow ∧ flow ≤ 400 ∧ 0 < tdh ∧ tdh ≤ 200

noncomputable instance (flow : ℚ) (tdh : ℝ) : Decidable (guardTDHEstimate flow tdh) :=
  Classical.propDecidable _

/-- The `btnEstimateTDH` click handler: estimate the scoped flow, run the
estimator (which always records `estimatedL` / `estimatedFriction` /
`estimatedTDH`), and only when every guard rail passes write the rounded head
onto the scope-matching pumps.  The source reads the same `selApplyTDH` select
both for the flow scope and for the apply mode, hence the single `scope`
argument; the guard-failing branch only re-renders. -/
noncomputable def estimateClick (cfg : Config) (scope : String) : Config :=
  let flow := estimateFlowByScope cfg scope
  let res := estimateTDHForFlow cfg.engineering flow
  let cfg' := { cfg with engineering := res.1 }
  if guardTDHEstimate flow res.2 then
    { cfg' with pumps := applyEstimatedTDHToPumps cfg'.pumps scope res.2 }
  else cfg'

/-- Text is handled as its character sequence (`String.toList`); splitting on
a character class, keeping empty pieces, mirrors `String.prototype.split`. -/
def splitChars (p : Char → Bool) (cs : List Char) : List (List Char) :=
  cs.foldr
    (fun c acc =>
      if p c then [] :: acc
      else
        match acc with
        | h :: t => (c :: h) :: t
        | [] => [[c]])
    [[]]

/-- JS `String.prototype.trim`: drop leading and trailing whitespace. -/
def trimChars (cs : List Char) : List Char :=
  ((cs.dropWhile Char.isWhitespace).reverse.dropWhile Char.isWhitespace).reverse

/-- Numeric value of a run of decimal digits. -/
def digitsNat (ds : List Char) : ℕ :=
  ds.foldl (fun a c => a * 10 + (c.toNat - 48)) 0

/-- The numeral split into sign and remainder: an optional leading `-` / `+`. -/
def splitSign (cs : List Char) : ℚ × List Char :=
  match cs with
  | c :: r => if c = '-' then (-1, r) else if c = '+' then (1, r) else (1, c :: r)
  | [] => (1, [])

/-- The fraction digits: a leading `.` followed by digits, else nothing. -/
def fracSlice (cs : List Char) : List Char :=
  match cs with
  | c :: r => if c = '.' then r.takeWhile Char.isDigit else []
  | [] => []

/-- `num(v, NaN)` = `parseFloat(String(v).trim())`, modelled for decimal
numerals: optional sign, integer digits, optional `.` and fraction digits,
with `parseFloat`'s longest-prefix semantics (trailing junk is ignored);
`none` (= NaN) when no digit is consumed.  Exponent, `Infinity` and hex forms
are not modelled — no curve-point text the engine handles uses them. -/
def jsParseFloatChars (cs : List Char) : Option ℚ :=
  let signed := splitSign (trimChars cs)
  let intDigits := signed.2.takeWhile Char.isDigit
  let fracDigits := fracSlice (signed.2.dropWhile Char.isDigit)
  if intDigits = [] ∧ fracDigits = [] then none
  else some (signed.1 * ((digitsNat intDigits : ℚ) +
    (digitsNat fracDigits : ℚ) / 10 ^ fracDigits.length))

/-- A separator character of the per-line split `/[,\s;]+/`. -/
def sepChar (c : Char) : Bool := c = ',' || c = ';' || c.isWhitespace

/-- The per-line token split of `parsePoints`:
`line.split(/[,\s;]+/).map(s => s.trim()).filter(Boolean)` (the single-character
split keeps empty pieces and the `filter(Boolean)` drops them, which equals the
run-based regex split). -/
def lineParts (line : List Char) : List (List Char) :=
  ((splitChars sepChar line).map trimChars).filter (· ≠ [])

/-- One line of curve-point text: require at least two parts and parse both
numbers; `none` models the source's `continue`. -/
def parseLinePoint (line : List Char) : Option Point :=
  match lineParts line with
  | a :: b :: _ =>
    match jsParseFloatChars a, jsParseFloatChars b with
    | some gpm, some tdh => some ⟨gpm, tdh⟩
    | _, _ => none
  | _ => none

/-- The line list of `parsePoints`: split the text on newlines (`/\r?\n/`: a
`\r` a CRLF leaves behind is removed by the `trim`, and a stray mid-line `\r`
is a `\s` separator in the part split, both as in the source), trim each line,
drop blank lines. -/
def parseLines (text : String) : List (List Char) :=
  ((splitChars (· = '\n') text.toList).map trimChars).filter (· ≠ [])

/-- `parsePoints(text)`: every parseable line becomes a point, in input order,
then one stable sort ascending by flow (`pts.sort((a, b) => a.gpm - b.gpm)`,
and JS `Array.prototype.sort` is stable). -/
def parsePoints (text : String) : List Point :=
  ((parseLines text).filterMap parseLinePoint).mergeSort (fun p q => p.gpm ≤ q.gpm)

/-! ## Helper lemmas -/

lemma le_foldl_max (b : ℚ) (xs : List ℚ) : b ≤ xs.foldl max b := by
  induction xs generalizing b with
  | nil => simp
  | cons x xs ih => exact le_trans (le_max_left b x) (ih (max b x))

lemma mem_le_foldl_max {a : ℚ} (b : ℚ) {xs : List ℚ} (h : a ∈ xs) : a ≤ xs.foldl max b := by
  induction xs generalizing b with
  | nil => cases h
  | cons x xs ih =>
    rcases List.mem_cons.1 h with rfl | h'
    · exact le_trans (le_max_right b a) (le_foldl_max _ _)
    · exact ih _ h'

lemma le_listMax {l : List ℚ} {a : ℚ} (h : a ∈ l) : a ≤ listMax l := by
  cases l with
  | nil => cases h
  | cons x xs =>
    rcases List.mem_cons.1 h with rfl | h'
    · exact le_foldl_max _ _
    · exact mem_le_foldl_max _ h'

lemma foldl_min_le (b : ℚ) (xs : List ℚ) : xs.foldl min b ≤ b := by
  induction xs generalizing b with
  | nil => simp
  | cons x xs ih => exact le_trans (ih (min b x)) (min_le_left b x)

lemma foldl_min_le_mem {a : ℚ} (b : ℚ) {xs : List ℚ} (h : a ∈ xs) : xs.foldl min b ≤ a := by
  induction xs generalizing b with
  | nil => cases h
  | cons x xs ih =>
    rcases List.mem_cons.1 h with rfl | h'
    · exact le_trans (foldl_min_le (min b a) xs) (min_le_right b a)
    · exact ih _ h'

lemma listMin_le {l : List ℚ} {a : ℚ} (h : a ∈ l) : listMin l ≤ a := by
  cases l with
  | nil => cases h
  | cons x xs =>
    rcases List.mem_cons.1 h with rfl | h'
    · exact foldl_min_le _ _
    · exact foldl_min_le_mem _ h'

lemma listMin_le_listMax {l : List ℚ} (h : l ≠ []) : listMin l ≤ listMax l := by
  cases l with
  | nil => exact absurd rfl h
  | cons x xs => exact le_trans (listMin_le (List.mem_cons_self x xs)) (le_listMax (List.mem_cons_self x xs))

lemma chain_foldl_max_getLast :
    ∀ (xs : List ℚ) (b : ℚ), List.Chain' (· ≤ ·) (b :: xs) →
      xs.foldl max b = (b :: xs).getLast (List.cons_ne_nil b xs) := by
  intro xs
  induction xs with
  | nil => intro b _; simp [List.getLast]
  | cons y ys ih =>
    intro b hchain
    have hby : b ≤ y := (List.chain'_cons.1 hchain).1
    have htail : List.Chain' (· ≤ ·) (y :: ys) := (List.chain'_cons.1 hchain).2
    calc ((y :: ys).foldl max b) = ys.foldl max (max b y) := by simp
    _ = ys.foldl max y := by rw [max_eq_right hby]
    _ = (y :: ys).getLast (List.cons_ne_nil y ys) := ih y htail
    _ = (b :: y :: ys).getLast (List.cons_ne_nil b (y :: ys)) :=
          (List.getLast_cons (List.cons_ne_nil y ys)).symm

lemma listMax_eq_getLast_of_chain {l : List ℚ} (h : l ≠ []) (hc : List.Chain' (· ≤ ·) l) :
    listMax l = l.getLast h := by
  cases l with
  | nil => exact absurd rfl h
  | cons x xs => simpa [listMax] using chain_foldl_max_getLast xs x hc

lemma scanSegs_nan : ∀ pts : List Point, scanSegs none pts = none := by
  intro pts
  induction pts with
  | nil => rfl
  | cons a rest ih =>
    cases rest with
    | nil => rfl
    | cons b r => simpa [scanSegs, jle, jge] using ih

lemma head?_mergeSort_min {α : Type} (le : α → α → Bool)
    (htrans : ∀ a b c, le a b → le b c → le a c)
    (htot : ∀ a b, le a b || le b a)
    {l : List α} (hl : l ≠ []) :
    ∃ x, (l.mergeSort le).head? = some x ∧ x ∈ l ∧ ∀ y ∈ l, le x y = true := by
  have hperm := List.mergeSort_perm l le
  have hsorted := List.sorted_mergeSort htrans htot l
  have hne : l.mergeSort le ≠ [] := by
    intro hnil
    have hlen : l.length = 0 := by rw [← hperm.length_eq, hnil]; rfl
    exact hl (List.length_eq_zero.1 hlen)
  obtain ⟨x, rest, hs⟩ := List.exists_cons_of_ne_nil hne
  refine ⟨x, by rw [hs]; rfl, hperm.mem_iff.1 (hs ▸ List.mem_cons_self x rest), ?_⟩
  intro y hy
  have hy' : y ∈ l.mergeSort le := hperm.mem_iff.2 hy
  rw [hs] at hy' hsorted
  rcases List.mem_cons.1 hy' with rfl | hyr
  · have := htot y y
    simpa using this
  · exact (List.pairwise_cons.1 hsorted).1 y hyr

lemma mergeSort_pair {α : Type} (le : α → α → Bool) (a b : α) :
    List.mergeSort [a, b] le = if le a b then [a, b] else [b, a] := by
  rw [List.mergeSort]
  simp only [List.splitInTwo_fst, List.splitInTwo_snd, List.length_cons, List.length_nil]
  norm_num
  by_cases h : le a b
  · simp [List.mergeSort, List.merge, h]
  · simp [List.mergeSort, List.merge, h]

lemma jsRound_intCast (n : ℤ) : jsRound (n : ℚ) = n := by
  unfold jsRound
  rw [add_comm, Int.floor_add_int]
  norm_num

lemma effQty_intCast {n : ℤ} (h : 1 ≤ n) : effQty (n : ℚ) = n := by
  simp [effQty, jsRound_intCast, max_eq_right h]

/-! ## Concrete configurations used by witnesses and counterexamples -/

/-- An engineering block with the source's default numeric values and empty
text inputs. -/
def engDefault : Engineering :=
  { eqDist := none, fitAllow := 60, pipeIn := 5/2, elev := none, equipHead := 10,
    C := 140, estimatedTDH := 0, estimatedFriction := 0, estimatedL := 0 }

/-- The source's default state: 18000 gal pool, 6 h turnover, one water-feature
row `{qty 3, width 2, gpmPerFt 15}`, spa disabled with 8 jets at 12 GPM, one
Shared and one Water pump. -/
def cfgDefault : Config :=
  { project := ⟨18000, 6, none⟩
    waterFeatures := [⟨3, 2, 15⟩]
    spa := ⟨false, "shared", 600, 6, 8, 12, 50⟩
    pumps := [⟨"Jandy VS FloPro 2.7 HP", 1, "Shared", 50⟩,
              ⟨"Jandy VS FloPro 2.7 HP", 1, "Water", 50⟩]
    engineering := engDefault }

/-- A configuration whose single water-feature row demands 510 GPM. -/
def cfgHighFlow : Config :=
  { cfgDefault with waterFeatures := [⟨34, 1, 15⟩] }

/-! ## Claims -/

/-- **C7** (amended): pool turnover flow equals `poolVolume / (turnoverHours·60)`
whenever the pool volume is nonzero, and equals 0 when the pool volume is 0;
the zero-guard is an equality test (JS falsiness), not `≤ 0`, and the
effective turnover hours are never 0 (a stored 0 falls back to 6). -/
theorem pool_turnover_flow_spec (p : Project) :
    getTurnoverHours p ≠ 0 ∧
    (p.poolVol = 0 → calcPoolTurnoverFlowGPM p = 0) ∧
    (p.poolVol ≠ 0 → calcPoolTurnoverFlowGPM p = p.poolVol / (getTurnoverHours p * 60)) := by
  refine ⟨?_, ?_, ?_⟩
  · unfold getTurnoverHours
    cases hc : p.turnoverCustom with
    | none => by_cases h : p.turnoverH = 0 <;> simp [h]
    | some c =>
      by_cases hcpos : 0 < c
      · simpa [hcpos] using ne_of_gt hcpos
      · by_cases h : p.turnoverH = 0 <;> simp [hcpos, h]
  · intro h
    simp [calcPoolTurnoverFlowGPM, h]
  · intro h
    unfold calcPoolTurnoverFlowGPM
    rw [if_neg h]
    by_cases hh : getTurnoverHours p = 0
    · rw [if_pos hh, hh]
      simp
    · rw [if_neg hh, div_div]

/-- **C7** witness: the scenario `poolVolume = 18000`, `turnoverHours = 6`
gives `18000 / (6·60) = 50` GPM, via the main theorem. -/
theorem pool_turnover_flow_spec_witness :
    calcPoolTurnoverFlowGPM ⟨18000, 6, none⟩ = 50 := by
  have h := (pool_turnover_flow_spec ⟨18000, 6, none⟩).2.2 (by norm_num)
  rw [h]
  norm_num [getTurnoverHours]

/-- **C7** counterexample: at `poolVolume = -18000` (≤ 0) and 6 h turnover the
code returns `-50`, not the `0` the claim's `≤ 0` guard would require. -/
theorem pool_turnover_negative_counterexample :
    (⟨-18000, 6, none⟩ : Project).poolVol ≤ 0 ∧
    calcPoolTurnoverFlowGPM ⟨-18000, 6, none⟩ = -50 ∧
    calcPoolTurnoverFlowGPM ⟨-18000, 6, none⟩ ≠ 0 := by
  norm_num [calcPoolTurnoverFlowGPM, getTurnoverHours]

/-- **C1**: evaluation of the code at the failing configuration (the source's
default state, which has a dedicated `"Water"` pump): `systemRequiredFlow` for
`"Shared"` returns pool turnover (50) *plus* water-features flow (90) = 140,
not the pool turnover alone that the spec's allocation policy requires. -/
theorem shared_flow_double_counts_eval :
    (cfgDefault.pumps.any (fun p => p.system = "Water")) = true ∧
    calcPoolTurnoverFlowGPM cfgDefault.project = 50 ∧
    calcWaterFeaturesFlowGPM cfgDefault.waterFeatures = 90 ∧
    systemRequiredFlow cfgDefault "Shared" = 140 ∧
    systemRequiredFlow cfgDefault "Shared" ≠ calcPoolTurnoverFlowGPM cfgDefault.project := by
  norm_num +decide [cfgDefault, engDefault, calcPoolTurnoverFlowGPM, getTurnoverHours,
    calcWaterFeaturesFlowGPM, systemRequiredFlow, calcPoolRequiredFlowGPM]

/-- **C2** (amended): `systemRequiredFlow` for the `"Spa"` tag returns the spa
required flow (max of jets flow and spa turnover flow) regardless of the
spa-enabled flag — the flag is not consulted. -/
theorem spa_flow_ignores_enabled (cfg : Config) :
    systemRequiredFlow cfg "Spa" = calcSpaRequiredFlowGPM cfg.spa ∧
    ∀ b : Bool,
      systemRequiredFlow { cfg with spa := { cfg.spa with enabled := b } } "Spa" =
        systemRequiredFlow cfg "Spa" := by
  constructor
  · simp [systemRequiredFlow]
  · intro b
    simp [systemRequiredFlow, calcSpaRequiredFlowGPM, calcSpaJetsFlowGPM,
      calcSpaTurnoverFlowGPM]

/-- **C2** counterexample: in the default state the spa is disabled, yet
`systemRequiredFlow("Spa")` returns the jets flow `8·12 = 96`, not the `0` the
claim requires for a disabled spa. -/
theorem spa_flow_when_disabled_counterexample :
    cfgDefault.spa.enabled = false ∧
    systemRequiredFlow cfgDefault "Spa" = 96 ∧
    systemRequiredFlow cfgDefault "Spa" ≠ 0 := by
  norm_num +decide [cfgDefault, systemRequiredFlow, calcSpaRequiredFlowGPM,
    calcSpaJetsFlowGPM, calcSpaTurnoverFlowGPM]

/-- **C6**: when the estimator's scoped flow exceeds 400 GPM, the estimate
action leaves every pump assignment unchanged — the flow guard rail fails
before any head is applied. -/
theorem estimate_high_flow_not_applied (cfg : Config) (scope : String)
    (h : 400 < estimateFlowByScope cfg scope) :
    (estimateClick cfg scope).pumps = cfg.pumps := by
  have hng : ¬ guardTDHEstimate (estimateFlowByScope cfg scope)
      (estimateTDHForFlow cfg.engineering (estimateFlowByScope cfg scope)).2 :=
    fun hg => absurd hg.2.1 (not_le.2 h)
  simp [estimateClick, hng]

/-- **C6** witness: a water-feature row of `34 × 1 ft × 15 GPM/ft = 510 GPM`
trips the 400 GPM rail and the pump list is unchanged. -/
theorem estimate_high_flow_not_applied_witness :
    400 < estimateFlowByScope cfgHighFlow "water" ∧
    (estimateClick cfgHighFlow "water").pumps = cfgHighFlow.pumps := by
  have h : 400 < estimateFlowByScope cfgHighFlow "water" := by
    norm_num +decide [estimateFlowByScope, calcWaterFeaturesFlowGPM, cfgHighFlow, cfgDefault]
  exact ⟨h, estimate_high_flow_not_applied cfgHighFlow "water" h⟩

/-- **C10**: one estimate action always writes exactly the computed equivalent
length, friction loss and estimated head into the engineering state — also
when a guard rail blocks applying the head to the pumps — and leaves every
other engineering field unchanged. -/
theorem estimateClick_engineering_frame (cfg : Config) (scope : String) :
    (estimateClick cfg scope).engineering =
      { cfg.engineering with
          estimatedL := estL cfg.engineering
          estimatedFriction := estFriction cfg.engineering (estimateFlowByScope cfg scope)
          estimatedTDH := estTDH cfg.engineering (estimateFlowByScope cfg scope) } := by
  by_cases h : guardTDHEstimate (estimateFlowByScope cfg scope)
      (estTDH cfg.engineering (estimateFlowByScope cfg scope))
  · simp [estimateClick, estimateTDHForFlow, h]
  · simp [estimateClick, estimateTDHForFlow, h]

/-- Follows the spec's words (§4.5), for comparison with the code's estimator:
equivalent length `L = 2·(one-way equipment distance) + extra fitting
allowance`, friction `hf = 4.52·L·Q^1.85 / (C^1.85·d^4.87)` with the roughness
coefficient `C` and pipe internal diameter `d` *as given in the
configuration*, and estimated head `hf + elevationChange +
fixedEquipmentHeadLoss`. -/
noncomputable def specEstimatedTDH (eng : Engineering) (Q : ℚ) : ℝ :=
  let L : ℚ := eng.eqDist.getD 0 * 2 + eng.fitAllow
  (452/100 : ℝ) * (L : ℝ) * (Q : ℝ) ^ (185/100 : ℝ) /
    (((eng.C : ℝ) ^ (185/100 : ℝ)) * ((eng.pipeIn : ℝ) ^ (487/100 : ℝ))) +
    (eng.elev.getD 0 : ℝ) + (eng.equipHead : ℝ)

/-- **C5** (amended): for `Q > 0` the estimator computes the spec's formula
with the configured `C` and `d` *provided* they already lie inside the clamp
ranges `[80, 160]` and `[1.0, 6.0]` the code applies, and the equivalent
length `2·eqDist + fitAllow` is positive (the code floors it at 0). -/
theorem estimator_formula_in_range (eng : Engineering) (Q : ℚ)
    (hQ : 0 < Q) (hC1 : 80 ≤ eng.C) (hC2 : eng.C ≤ 160)
    (hd1 : 1 ≤ eng.pipeIn) (hd2 : eng.pipeIn ≤ 6)
    (hL : 0 < eng.eqDist.getD 0 * 2 + eng.fitAllow) :
    (estimateTDHForFlow eng Q).2 = specEstimatedTDH eng Q := by
  have hCc : clampQ eng.C 80 160 = eng.C := by
    simp [clampQ, min_eq_right hC2, max_eq_right hC1]
  have hdc : clampQ eng.pipeIn 1 6 = eng.pipeIn := by
    simp [clampQ, min_eq_right hd2, max_eq_right hd1]
  have hLc : estL eng = eng.eqDist.getD 0 * 2 + eng.fitAllow := max_eq_right hL.le
  have hQc : max 0 Q = Q := max_eq_right hQ.le
  have hcond : ¬ (max 0 Q ≤ 0 ∨ estL eng ≤ 0) := by
    rw [hQc, hLc]
    push_neg
    exact ⟨hQ, hL⟩
  show estTDH eng Q = specEstimatedTDH eng Q
  unfold estTDH estFriction specEstimatedTDH
  rw [if_neg hcond, hCc, hdc, hLc, hQc]

/-- An engineering block whose configured roughness coefficient `C = 200` lies
outside the code's clamp range `[80, 160]`. -/
def engC200 : Engineering :=
  { eqDist := some 50, fitAllow := 60, pipeIn := 5/2, elev := some 4, equipHead := 10,
    C := 200, estimatedTDH := 0, estimatedFriction := 0, estimatedL := 0 }

/-- **C5** counterexample: with configured `C = 200` and `Q = 50` the spec
formula (using `C` as given) and the code's estimator (which clamps `C` to
160) disagree — the code's friction term is strictly larger. -/
theorem estimator_clamped_C_counterexample :
    specEstimatedTDH engC200 50 ≠ (estimateTDHForFlow engC200 50).2 := by
  have hspec : specEstimatedTDH engC200 50 =
      (452/100 : ℝ) * 160 * (50 : ℝ) ^ (185/100 : ℝ) /
        ((200 : ℝ) ^ (185/100 : ℝ) * (5/2 : ℝ) ^ (487/100 : ℝ)) + 4 + 10 := by
    unfold specEstimatedTDH engC200
    norm_num
  have hcode : (estimateTDHForFlow engC200 50).2 =
      (452/100 : ℝ) * 160 * (50 : ℝ) ^ (185/100 : ℝ) /
        ((160 : ℝ) ^ (185/100 : ℝ) * (5/2 : ℝ) ^ (487/100 : ℝ)) + 4 + 10 := by
    show estTDH engC200 50 = _
    unfold estTDH estFriction estL engC200
    rw [if_neg (by norm_num)]
    norm_num [clampQ]
  rw [hspec, hcode]
  have hexp : (160 : ℝ) ^ (185/100 : ℝ) < (200 : ℝ) ^ (185/100 : ℝ) :=
    Real.rpow_lt_rpow (by norm_num) (by norm_num) (by norm_num)
  have hD : (0 : ℝ) < (5/2 : ℝ) ^ (487/100 : ℝ) :=
    Real.rpow_pos_of_pos (by norm_num) _
  have hA : (0 : ℝ) < (452/100 : ℝ) * 160 * (50 : ℝ) ^ (185/100 : ℝ) := by
    have := Real.rpow_pos_of_pos (show (0:ℝ) < 50 by norm_num) (185/100 : ℝ)
    positivity
  have hlt : (452/100 : ℝ) * 160 * (50 : ℝ) ^ (185/100 : ℝ) /
      ((200 : ℝ) ^ (185/100 : ℝ) * (5/2 : ℝ) ^ (487/100 : ℝ)) <
      (452/100 : ℝ) * 160 * (50 : ℝ) ^ (185/100 : ℝ) /
      ((160 : ℝ) ^ (185/100 : ℝ) * (5/2 : ℝ) ^ (487/100 : ℝ)) := by
    apply div_lt_div_of_pos_left hA
    · exact mul_pos (Real.rpow_pos_of_pos (by norm_num) _) hD
    · exact mul_lt_mul_of_pos_right hexp hD
  exact ne_of_lt (by linarith)

/-- An engineering block with every parameter inside the clamp ranges. -/
def engInRange : Engineering :=
  { eqDist := some 60, fitAllow := 60, pipeIn := 5/2, elev := some 4, equipHead := 10,
    C := 140, estimatedTDH := 0, estimatedFriction := 0, estimatedL := 0 }

/-- **C5** witness: at `eqDist = 60`, `fitAllow = 60` (`L = 180`), `Q = 50`,
`C = 140`, `d = 2.5`, the code's head equals the spec formula. -/
theorem estimator_formula_in_range_witness :
    (estimateTDHForFlow engInRange 50).2 = specEstimatedTDH engInRange 50 :=
  estimator_formula_in_range engInRange 50 (by norm_num)
    (by norm_num [engInRange]) (by norm_num [engInRange])
    (by norm_num [engInRange]) (by norm_num [engInRange])
    (by norm_num [engInRange])

/-- **C4**: boundary behaviour of the inverse lookup `gpmAtTDH`: fewer than 2
points gives 0; a NaN target gives 0; a target above the curve's maximum head
gives 0; a target below the curve's minimum head gives the flow of the
maximum-flow point (for a point list sorted ascending by flow, as `parsePoints`
and the curve store guarantee, that is the last point's flow). -/
theorem gpmAtTDH_boundary_spec (pts : List Point) (t : JsNum) (q : ℚ) :
    (pts.length < 2 → gpmAtTDH pts t = 0) ∧
    (gpmAtTDH pts none = 0) ∧
    (listMax (pts.map Point.tdh) < q → gpmAtTDH pts (some q) = 0) ∧
    (2 ≤ pts.length → List.Chain' (fun a b : Point => a.gpm ≤ b.gpm) pts →
      q < listMin (pts.map Point.tdh) →
      gpmAtTDH pts (some q) = listMax (pts.map Point.gpm)) := by
  refine ⟨?_, ?_, ?_, ?_⟩
  · intro h
    simp [gpmAtTDH, h]
  · by_cases h : pts.length < 2
    · simp [gpmAtTDH, h]
    · simp [gpmAtTDH, h, jgt, jlt, scanSegs_nan]
  · intro h
    by_cases hlen : pts.length < 2
    · simp [gpmAtTDH, hlen]
    · simp [gpmAtTDH, hlen, jgt, h]
  · intro hlen hchain hq
    have hne : pts ≠ [] := by
      intro h0
      rw [h0] at hlen
      simp at hlen
    have hmapne : pts.map Point.tdh ≠ [] := by simpa using hne
    have hqmax : q < listMax (pts.map Point.tdh) :=
      lt_of_lt_of_le hq (listMin_le_listMax hmapne)
    unfold gpmAtTDH
    rw [if_neg (by omega)]
    simp only [jgt, jlt, decide_eq_true_eq]
    rw [if_neg (by simpa using not_lt.2 hqmax.le), if_pos (by simpa using hq)]
    have hgne : pts.map Point.gpm ≠ [] := by simpa using hne
    have hchain' : (pts.map Point.gpm).Chain' (· ≤ ·) := (List.chain'_map _).2 hchain
    rw [listMax_eq_getLast_of_chain hgne hchain']
    have h2 : (pts.map Point.gpm).getLast? = some ((pts.getLast hne).gpm) := by
      rw [List.getLast?_map, List.getLast?_eq_getLast pts hne]
      rfl
    have h3 : (pts.map Point.gpm).getLast? =
        some ((pts.map Point.gpm).getLast hgne) := List.getLast?_eq_getLast _ _
    rw [List.getLast?_eq_getLast pts hne]
    exact Option.some.inj (h2.symm.trans h3)

/-- **C4** witness: on the line `[(0,95), (30,92)]`, a target of 100 ft is above
the maximum head and yields 0; a target of 50 ft is below the minimum head and
yields the maximum flow 30; a single-point list yields 0; a NaN target yields
0. -/
theorem gpmAtTDH_boundary_spec_witness :
    gpmAtTDH [⟨0,95⟩,⟨30,92⟩] (some 100) = 0 ∧
    gpmAtTDH [⟨0,95⟩,⟨30,92⟩] (some 50) = listMax ([⟨0,95⟩,⟨30,92⟩].map Point.gpm) ∧
    gpmAtTDH [⟨0,95⟩] (some 50) = 0 ∧
    gpmAtTDH [⟨0,95⟩,⟨30,92⟩] none = 0 := by
  refine ⟨?_, ?_, ?_, ?_⟩
  · exact (gpmAtTDH_boundary_spec [⟨0,95⟩,⟨30,92⟩] none 100).2.2.1
      (by norm_num [listMax, max_def])
  · exact (gpmAtTDH_boundary_spec [⟨0,95⟩,⟨30,92⟩] none 50).2.2.2
      (by norm_num)
      (List.chain'_cons.2 ⟨by norm_num, List.chain'_singleton _⟩)
      (by norm_num [listMin, min_def])
  · exact (gpmAtTDH_boundary_spec [⟨0,95⟩] (some 50) 0).1 (by norm_num)
  · exact (gpmAtTDH_boundary_spec [⟨0,95⟩,⟨30,92⟩] none 0).2.1

/-- **C8**: for an integer quantity `q ≥ 1` and positive integer factor `k`,
the total capacity the matcher computes for an RPM line at quantity `k·q` is
exactly `k` times the capacity at quantity `q` (the unit flow at the target
head is unchanged; the effective quantity scales linearly). -/
theorem capacity_scales_with_quantity (line : RpmLine) (tdhv : ℚ) (q : ℤ) (k : ℕ)
    (hq : 1 ≤ q) (hk : 1 ≤ k) :
    lineTotalCapacity line tdhv ((k : ℚ) * (q : ℚ)) =
      (k : ℚ) * lineTotalCapacity line tdhv (q : ℚ) := by
  have hkz : (1 : ℤ) ≤ (k : ℤ) := by exact_mod_cast hk
  have h1 : ((k : ℚ) * (q : ℚ)) = (((k : ℤ) * q : ℤ) : ℚ) := by push_cast; ring
  have hkq : (1 : ℤ) ≤ (k : ℤ) * q := by nlinarith
  rw [lineTotalCapacity, lineTotalCapacity, h1, effQty_intCast hkq, effQty_intCast hq]
  push_cast
  ring

/-- **C8** witness: on a concrete line at head 50, tripling the quantity 2
triples the capacity. -/
theorem capacity_scales_with_quantity_witness :
    lineTotalCapacity ⟨3450, [⟨0,95⟩,⟨30,92⟩]⟩ 50 (3 * 2 : ℚ) =
      (3 : ℚ) * lineTotalCapacity ⟨3450, [⟨0,95⟩,⟨30,92⟩]⟩ 50 (2 : ℚ) := by
  have h := capacity_scales_with_quantity ⟨3450, [⟨0,95⟩,⟨30,92⟩]⟩ 50 2 3
    (by norm_num) (by norm_num)
  exact_mod_cast h

lemma mem_candidatesOf {m : PumpModel} {tdh qty : ℚ} {x : Cand} :
    x ∈ candidatesOf m tdh qty ↔
      x.line ∈ m.rpmLines ∧ x.per = lineUnitFlow x.line tdh ∧
      x.total = lineTotalCapacity x.line tdh qty ∧ 0 < x.per := by
  constructor
  · intro hx
    obtain ⟨hmem, hp⟩ := List.mem_filter.1 hx
    obtain ⟨line, hline, rfl⟩ := List.mem_map.1 hmem
    exact ⟨hline, rfl, rfl, by simpa using hp⟩
  · rintro ⟨hline, hper, htot, hpos⟩
    apply List.mem_filter.2
    refine ⟨List.mem_map.2 ⟨x.line, hline, ?_⟩, by simpa using hpos⟩
    cases x with
    | mk l p t =>
      simp only at hper htot
      rw [hper, htot]

/-- **C3** (amended): under the claim's hypotheses (model present, target head
not above the model's maximum rated head), the matcher's policy applies to the
lines with *positive* unit flow at the target head (the code filters
`x.per > 0` first): among those, if one has capacity ≥ the required flow, the
selected line is a sufficient positive-flow line of minimal speed and the
verdict is PASS; if positive-flow lines exist but none reaches the required
flow, the selected line is a positive-flow line of maximal capacity and the
verdict is the failing CLOSE. -/
theorem statusDetails_selection_policy (cfg : Config) (store : CurveStore) (pump : Pump)
    (m : PumpModel) (hm : store pump.model = some m)
    (hmax : pump.tdh ≤ maxCurveTDH store pump.model) :
    ((∃ line ∈ m.rpmLines, 0 < lineUnitFlow line pump.tdh ∧
        systemRequiredFlow cfg pump.system ≤ lineTotalCapacity line pump.tdh pump.qty) →
      ∃ line ∈ m.rpmLines,
        statusDetails cfg store pump = ⟨true, .passReq, some line⟩ ∧
        0 < lineUnitFlow line pump.tdh ∧
        systemRequiredFlow cfg pump.system ≤ lineTotalCapacity line pump.tdh pump.qty ∧
        ∀ l2 ∈ m.rpmLines, 0 < lineUnitFlow l2 pump.tdh →
          systemRequiredFlow cfg pump.system ≤ lineTotalCapacity l2 pump.tdh pump.qty →
          line.rpm ≤ l2.rpm) ∧
    (((∃ line ∈ m.rpmLines, 0 < lineUnitFlow line pump.tdh) ∧
        (∀ line ∈ m.rpmLines, 0 < lineUnitFlow line pump.tdh →
          lineTotalCapacity line pump.tdh pump.qty < systemRequiredFlow cfg pump.system)) →
      ∃ line ∈ m.rpmLines,
        statusDetails cfg store pump = ⟨false, .closeReq, some line⟩ ∧
        0 < lineUnitFlow line pump.tdh ∧
        ∀ l2 ∈ m.rpmLines, 0 < lineUnitFlow l2 pump.tdh →
          lineTotalCapacity l2 pump.tdh pump.qty ≤ lineTotalCapacity line pump.tdh pump.qty) := by
  have hnotHigh : ¬ (maxCurveTDH store pump.model < pump.tdh ∧
      0 < maxCurveTDH store pump.model) :=
    fun h => absurd hmax (not_le.2 h.1)
  constructor
  · rintro ⟨line, hline, hpos, hcap⟩
    have hrne : m.rpmLines ≠ [] := List.ne_nil_of_mem hline
    have hx : Cand.mk line (lineUnitFlow line pump.tdh)
        (lineTotalCapacity line pump.tdh pump.qty) ∈ candidatesOf m pump.tdh pump.qty :=
      mem_candidatesOf.2 ⟨hline, rfl, rfl, hpos⟩
    have hcne : candidatesOf m pump.tdh pump.qty ≠ [] := List.ne_nil_of_mem hx
    have hxok : Cand.mk line (lineUnitFlow line pump.tdh)
        (lineTotalCapacity line pump.tdh pump.qty) ∈
        (candidatesOf m pump.tdh pump.qty).filter
          (fun x => systemRequiredFlow cfg pump.system ≤ x.total) :=
      List.mem_filter.2 ⟨hx, by simpa using hcap⟩
    have hokne : (candidatesOf m pump.tdh pump.qty).filter
        (fun x => systemRequiredFlow cfg pump.system ≤ x.total) ≠ [] :=
      List.ne_nil_of_mem hxok
    obtain ⟨sel, hhead, hselmem, hselmin⟩ :=
      head?_mergeSort_min (fun a b : Cand => a.line.rpm ≤ b.line.rpm)
        (fun a b c hab hbc => by
          simp only [decide_eq_true_eq] at *
          exact le_trans hab hbc)
        (fun a b => by simpa using le_total a.line.rpm b.line.rpm)
        hokne
    have hselc : sel ∈ candidatesOf m pump.tdh pump.qty :=
      (List.mem_filter.1 hselmem).1
    have hselreq : systemRequiredFlow cfg pump.system ≤ sel.total := by
      simpa using (List.mem_filter.1 hselmem).2
    obtain ⟨hselline, hselper, hseltot, hselpos⟩ := mem_candidatesOf.1 hselc
    refine ⟨sel.line, hselline, ?_, ?_, ?_, ?_⟩
    · simp only [statusDetails, hm]
      rw [if_neg hrne, if_neg hnotHigh, if_neg hcne, if_pos hokne, hhead]
      rfl
    · rw [← hselper]; exact hselpos
    · rw [← hseltot]; exact hselreq
    · intro l2 hl2 hl2pos hl2cap
      have hx2 : Cand.mk l2 (lineUnitFlow l2 pump.tdh)
          (lineTotalCapacity l2 pump.tdh pump.qty) ∈
          (candidatesOf m pump.tdh pump.qty).filter
            (fun x => systemRequiredFlow cfg pump.system ≤ x.total) :=
        List.mem_filter.2 ⟨mem_candidatesOf.2 ⟨hl2, rfl, rfl, hl2pos⟩, by simpa using hl2cap⟩
      have := hselmin _ hx2
      simpa using this
  · rintro ⟨⟨line, hline, hpos⟩, hall⟩
    have hx : Cand.mk line (lineUnitFlow line pump.tdh)
        (lineTotalCapacity line pump.tdh pump.qty) ∈ candidatesOf m pump.tdh pump.qty :=
      mem_candidatesOf.2 ⟨hline, rfl, rfl, hpos⟩
    have hcne : candidatesOf m pump.tdh pump.qty ≠ [] := List.ne_nil_of_mem hx
    have hoknil : (candidatesOf m pump.tdh pump.qty).filter
        (fun x => systemRequiredFlow cfg pump.system ≤ x.total) = [] := by
      apply List.filter_eq_nil_iff.2
      intro x hxc
      obtain ⟨hxl, hxp, hxt, hxpos⟩ := mem_candidatesOf.1 hxc
      have := hall x.line hxl (hxp ▸ hxpos)
      simp only [decide_eq_true_eq]
      rw [hxt]
      exact not_le.2 this
    obtain ⟨sel, hhead, hselmem, hselmax⟩ :=
      head?_mergeSort_min (fun a b : Cand => b.total ≤ a.total)
        (fun a b c hab hbc => by
          simp only [decide_eq_true_eq] at *
          exact le_trans hbc hab)
        (fun a b => by simpa using le_total b.total a.total)
        hcne
    obtain ⟨hselline, hselper, hseltot, hselpos⟩ := mem_candidatesOf.1 hselmem
    have hrne : m.rpmLines ≠ [] := List.ne_nil_of_mem hline
    refine ⟨sel.line, hselline, ?_, ?_, ?_⟩
    · simp only [statusDetails, hm]
      rw [if_neg hrne, if_neg hnotHigh, if_neg hcne, if_neg (not_not_intro hoknil), hhead]
      rfl
    · rw [← hselper]; exact hselpos
    · intro l2 hl2 hl2pos
      have hx2 : Cand.mk l2 (lineUnitFlow l2 pump.tdh)
          (lineTotalCapacity l2 pump.tdh pump.qty) ∈ candidatesOf m pump.tdh pump.qty :=
        mem_candidatesOf.2 ⟨hl2, rfl, rfl, hl2pos⟩
      have := hselmax _ hx2
      rw [← hseltot]
      simpa using this

/-- A low-speed line whose unit flow at a 50 ft target is 0 (the interpolation
lands exactly on the zero-flow end of its curve). -/
def lineA : RpmLine := ⟨2400, [⟨0,50⟩,⟨30,40⟩]⟩

/-- A high-speed line whose unit flow at a 50 ft target is 30 (the target is
below its minimum head). -/
def lineB : RpmLine := ⟨3450, [⟨0,95⟩,⟨30,92⟩]⟩

/-- A model with the two lines above. -/
def modelAB : PumpModel := ⟨[lineA, lineB]⟩

/-- A curve store holding only `modelAB` under the key `"M"`. -/
def storeAB : CurveStore := fun k => if k = "M" then some modelAB else none

/-- A Pool pump on model `"M"`, quantity 1, target head 50 ft. -/
def pumpM : Pump := ⟨"M", 1, "Pool", 50⟩

/-- A configuration with pool volume 0, so the Pool required flow is 0. -/
def cfgZeroPool : Config := { cfgDefault with project := ⟨0, 6, none⟩ }

/-- **C3** counterexample: with required flow 0, `lineA` (2400 RPM) has
capacity `0 ≥ 0` and is the lowest-speed line whose capacity reaches the
required flow, yet the matcher selects `lineB` (3450 RPM) — the code first
discards every line with zero unit flow, so the claim's "lowest-speed such
line" is not what is selected. -/
theorem matcher_zero_flow_line_counterexample :
    pumpM.tdh ≤ maxCurveTDH storeAB pumpM.model ∧
    lineA ∈ modelAB.rpmLines ∧
    systemRequiredFlow cfgZeroPool pumpM.system ≤ lineTotalCapacity lineA pumpM.tdh pumpM.qty ∧
    lineA.rpm < lineB.rpm ∧
    statusDetails cfgZeroPool storeAB pumpM = ⟨true, .passReq, some lineB⟩ := by
  have hm : storeAB "M" = some modelAB := by norm_num [storeAB]
  have hmax : maxCurveTDH storeAB "M" = 95 := by
    norm_num [maxCurveTDH, hm, modelAB, lineA, lineB, max_def, List.cons_ne_nil]
  have hperA : lineUnitFlow lineA 50 = 0 := by
    norm_num +decide [lineUnitFlow, lineA, gpmAtTDH, scanSegs, jgt, jlt, jle, jge,
      listMax, listMin, clampQ, max_def, min_def]
  have hperB : lineUnitFlow lineB 50 = 30 := by
    norm_num +decide [lineUnitFlow, lineB, gpmAtTDH, scanSegs, jgt, jlt, jle, jge,
      listMax, listMin, clampQ, max_def, min_def]
  have heff : effQty 1 = 1 := by norm_num [effQty, jsRound]
  have hcapA : lineTotalCapacity lineA 50 1 = 0 := by
    norm_num [lineTotalCapacity, hperA, heff]
  have hcapB : lineTotalCapacity lineB 50 1 = 30 := by
    norm_num [lineTotalCapacity, hperB, heff]
  have hreq : systemRequiredFlow cfgZeroPool "Pool" = 0 := by
    norm_num +decide [cfgZeroPool, cfgDefault, systemRequiredFlow, calcPoolTurnoverFlowGPM]
  have hcands : candidatesOf modelAB 50 1 = [⟨lineB, 30, 30⟩] := by
    simp only [candidatesOf, modelAB, List.map_cons, List.map_nil, hperA, hperB,
      hcapA, hcapB]
    norm_num
  refine ⟨?_, ?_, ?_, ?_, ?_⟩
  · show (50 : ℚ) ≤ maxCurveTDH storeAB "M"
    rw [hmax]
    norm_num
  · simp [modelAB]
  · show systemRequiredFlow cfgZeroPool "Pool" ≤ lineTotalCapacity lineA 50 1
    rw [hreq, hcapA]
  · norm_num [lineA, lineB]
  · show statusDetails cfgZeroPool storeAB pumpM = ⟨true, .passReq, some lineB⟩
    simp only [statusDetails, pumpM, hm]
    rw [if_neg (by exact List.cons_ne_nil _ _ : ¬ modelAB.rpmLines = [])]
    rw [if_neg (by rw [hmax]; norm_num :
      ¬ (maxCurveTDH storeAB "M" < (50:ℚ) ∧ (0:ℚ) < maxCurveTDH storeAB "M"))]
    rw [hcands]
    rw [if_neg (by exact List.cons_ne_nil _ _ : ¬ ([(⟨lineB, 30, 30⟩ : Cand)] = []))]
    simp only [hreq]
    norm_num [List.filter]

/-- A single usable line: 30 GPM at any head at or below 71 ft. -/
def lineW : RpmLine := ⟨3000, [⟨0,75⟩,⟨30,71⟩]⟩

/-- A model holding only `lineW`. -/
def modelW : PumpModel := ⟨[lineW]⟩

/-- A curve store holding only `modelW` under the key `"W"`. -/
def storeW : CurveStore := fun k => if k = "W" then some modelW else none

/-- A Pool pump on model `"W"`, quantity 1, target head 50 ft. -/
def pumpW : Pump := ⟨"W", 1, "Pool", 50⟩

/-- **C3** witness: on a model whose single line yields 30 GPM at the 50 ft
target with required flow 0, the amended selection policy applies and the
matcher passes. -/
theorem statusDetails_selection_policy_witness :
    (statusDetails cfgZeroPool storeW pumpW).pass = true := by
  have hm : storeW "W" = some modelW := by norm_num [storeW]
  have hmaxW : maxCurveTDH storeW "W" = 75 := by
    norm_num [maxCurveTDH, hm, modelW, lineW, max_def, List.cons_ne_nil]
  have hper : lineUnitFlow lineW 50 = 30 := by
    norm_num +decide [lineUnitFlow, lineW, gpmAtTDH, scanSegs, jgt, jlt, jle, jge,
      listMax, listMin, clampQ, max_def, min_def]
  have hcap : lineTotalCapacity lineW 50 1 = 30 := by
    norm_num [lineTotalCapacity, hper, effQty, jsRound]
  have hreq : systemRequiredFlow cfgZeroPool "Pool" = 0 := by
    norm_num +decide [cfgZeroPool, cfgDefault, systemRequiredFlow, calcPoolTurnoverFlowGPM]
  obtain ⟨line, _, heq, _⟩ :=
    (statusDetails_selection_policy cfgZeroPool storeW pumpW modelW hm
      (by show (50:ℚ) ≤ maxCurveTDH storeW "W"; rw [hmaxW]; norm_num)).1
      ⟨lineW, by simp [modelW],
        by show (0:ℚ) < lineUnitFlow lineW 50
           rw [hper]
           norm_num,
        by show systemRequiredFlow cfgZeroPool "Pool" ≤ lineTotalCapacity lineW 50 1
           rw [hreq, hcap]
           norm_num⟩
  rw [heq]

/-- **C9** (amended): `parsePoints` returns exactly the points of all
parseable lines — as a multiset, nothing is collapsed — sorted ascending by
flow (the sort is stable, so points with equal flow keep their input order).
Duplicate flow values are therefore retained, not deduplicated. -/
theorem parsePoints_sorted_perm (text : String) :
    (parsePoints text).Perm ((parseLines text).filterMap parseLinePoint) ∧
    (parsePoints text).Pairwise (fun p q : Point => p.gpm ≤ q.gpm) := by
  constructor
  · exact List.mergeSort_perm _ _
  · have h := @List.sorted_mergeSort Point (fun p q : Point => decide (p.gpm ≤ q.gpm))
      (fun a b c hab hbc => by
        simp only [decide_eq_true_eq] at *
        exact le_trans hab hbc)
      (fun a b => by simpa using le_total a.gpm b.gpm)
      ((parseLines text).filterMap parseLinePoint)
    exact h.imp (by simp)

/-- **C9** counterexample: the input `"10,50\n10,60"` parses to two points
that share the flow value 10 — the earlier entry `(10, 50)` is kept, so
duplicate flow values are *not* collapsed to the latest entry. -/
theorem parsePoints_keeps_duplicates_counterexample :
    parsePoints "10,50\n10,60" = [⟨10,50⟩, ⟨10,60⟩] ∧
    ¬ (parsePoints "10,50\n10,60").Pairwise (fun p q : Point => p.gpm ≠ q.gpm) := by
  have hlines : parseLines "10,50\n10,60" =
      [['1','0',',','5','0'], ['1','0',',','6','0']] := by decide
  have hp1 : parseLinePoint ['1','0',',','5','0'] = some ⟨10,50⟩ := by
    norm_num +decide [parseLinePoint,
      show lineParts ['1','0',',','5','0'] = [['1','0'],['5','0']] from by decide,
      jsParseFloatChars,
      show splitSign (trimChars ['1','0']) = (1, ['1','0']) from by decide,
      show splitSign (trimChars ['5','0']) = (1, ['5','0']) from by decide,
      show (['1','0'].takeWhile Char.isDigit) = ['1','0'] from by decide,
      show (['5','0'].takeWhile Char.isDigit) = ['5','0'] from by decide,
      show (['1','0'].dropWhile Char.isDigit) = ([] : List Char) from by decide,
      show (['5','0'].dropWhile Char.isDigit) = ([] : List Char) from by decide,
      show fracSlice [] = [] from by decide,
      show digitsNat ['1','0'] = 10 from by decide,
      show digitsNat ['5','0'] = 50 from by decide,
      show digitsNat [] = 0 from by decide]
  have hp2 : parseLinePoint ['1','0',',','6','0'] = some ⟨10,60⟩ := by
    norm_num +decide [parseLinePoint,
      show lineParts ['1','0',',','6','0'] = [['1','0'],['6','0']] from by decide,
      jsParseFloatChars,
      show splitSign (trimChars ['1','0']) = (1, ['1','0']) from by decide,
      show splitSign (trimChars ['6','0']) = (1, ['6','0']) from by decide,
      show (['1','0'].takeWhile Char.isDigit) = ['1','0'] from by decide,
      show (['6','0'].takeWhile Char.isDigit) = ['6','0'] from by decide,
      show (['1','0'].dropWhile Char.isDigit) = ([] : List Char) from by decide,
      show (['6','0'].dropWhile Char.isDigit) = ([] : List Char) from by decide,
      show fracSlice [] = [] from by decide,
      show digitsNat ['1','0'] = 10 from by decide,
      show digitsNat ['6','0'] = 60 from by decide,
      show digitsNat [] = 0 from by decide]
  have hmain : parsePoints "10,50\n10,60" = [⟨10,50⟩, ⟨10,60⟩] := by
    unfold parsePoints
    rw [hlines]
    simp only [List.filterMap_cons, List.filterMap_nil, hp1, hp2]
    rw [mergeSort_pair]
    norm_num
  refine ⟨hmain, ?_⟩
  rw [hmain]
  intro h
  have := (List.pairwise_cons.1 h).1 _ (List.mem_cons_self _ _)
  simp at this

end PoolPump
